import Mathlib

/-!
Shallow embedding of the event bus in src/src/main.rs (module event_bus).

The Rust core consists of:
- struct Event { name: String, data: Box<dyn Any> } with Event::new and
  Event::data::<T> (downcast_ref + unwrap);
- trait Subscriber { fn call(&mut self, event: &Event) -> io::Result<()> };
- struct EventBus { event_subscribers: HashMap<String, Vec<Box<dyn Subscriber>>> }
  with new, from, subscribe, unsubscribe, subscribe_all, unsubscribe_all, post.

Modelling decisions, each justified against the source:
- The type-erased payload Box<dyn Any> is modelled as a pair of a type code
  (a Nat standing for TypeId of the payload type) and an encoded value (a Nat
  standing for the bits of the payload).  downcast_ref succeeds exactly when
  the stored type code equals the asserted one, as in Rust.
- A Box<dyn Subscriber> is modelled as a structure carrying the TypeId code of
  its concrete type S, an identity number used only to record invocations in a
  trace, its private mutable state (a Nat), and its call behaviour as a pure
  function from state and event to the returned io::Result and the new state.
  io::Error is modelled as String.
- HashMap<String, Vec<...>> is modelled as an association list with no
  duplicate keys arising from the operations; get returns the first entry with
  the key, and set replaces the value of the first such entry (get_mut + write)
  or appends a fresh entry (insert of an absent key).  The map iteration order
  is never used by the source, so this is faithful.
- A panic coming from .expect(..) is modelled as an explicit outcome value
  (PostOutcome.panicked for post; Except.error propagation in subscribe_all).
- post returns, besides the updated bus (handler states may advance), the
  trace of invocations: the list of (identity, event) pairs in call order.
-/

namespace EventBusModel

/-- Runtime type identifiers, std::any::TypeId.  A concrete handler type S
has tag TypeId.concrete c for a code c unique to S.  TypeId.boxDynSubscriber
is the tag of the type Box<dyn Subscriber> itself, which is distinct from the
tag of every concrete handler type. -/
inductive TypeId where
  | boxDynSubscriber : TypeId
  | concrete (code : Nat) : TypeId
deriving DecidableEq, Repr

/-- Event { name: String, data: Box<dyn Any> }.  The erased payload is kept
as the TypeId code of its static type (dataTy) and its encoded value
(dataVal). -/
structure Event where
  name : String
  dataTy : Nat
  dataVal : Nat
deriving DecidableEq, Repr

/-- Event::new(name, data): name converted into a String, payload boxed with
its static type remembered. -/
def Event.new (name : String) (dataTy dataVal : Nat) : Event :=
  { name := name, dataTy := dataTy, dataVal := dataVal }

/-- self.data.downcast_ref::<T>(): some view of the payload when T is exactly
the construction type, none otherwise. -/
def Event.downcast_ref (e : Event) (t : Nat) : Option Nat :=
  if e.dataTy = t then some e.dataVal else none

/-- Event::data::<T>(&self) -> &T: downcast_ref followed by unwrap.  The
unwrap panic on a type mismatch is modelled by the value none (the function
has no ordinary return in that case). -/
def Event.data (e : Event) (t : Nat) : Option Nat :=
  Event.downcast_ref e t

/-- One boxed handler, Box<dyn Subscriber>.  tyId is the code c such that the
concrete type S of the handler has TypeId.concrete c; hid identifies this
particular box in invocation traces; state is the private mutable state of the
handler; call models fn call(&mut self, event: &Event) -> io::Result<()> as a
pure function of the current state and the event, returning the result and the
updated state. -/
structure Subscriber where
  tyId : Nat
  hid : Nat
  state : Nat
  call : Nat → Event → Except String Unit × Nat

/-- The expression event_subscriber.type_id() in EventBus::unsubscribe, where
event_subscriber : &Box<dyn Subscriber>.  The trait Subscriber has no type_id
method, so Rust method resolution looks for Any::type_id through the blanket
impl (impl<T: ?Sized + 'static> Any for T): the receiver &Box<dyn Subscriber>
is not 'static, so resolution autoderefs once to Box<dyn Subscriber>, which is
'static, and the call resolves with Self = Box<dyn Subscriber>.  The result is
therefore TypeId::of::<Box<dyn Subscriber>>(), independent of the boxed
handler, not the TypeId of the concrete handler type. -/
def boxed_type_id (_ : Subscriber) : TypeId :=
  TypeId.boxDynSubscriber

/-- The expression subscriber.type_id() in EventBus::unsubscribe, where
subscriber : S with S : Subscriber + 'static a concrete sized type.  The same
blanket impl resolves with Self = S, so the result is TypeId::of::<S>(). -/
def Subscriber.type_id (s : Subscriber) : TypeId :=
  TypeId.concrete s.tyId

/-- The registry HashMap<String, Vec<Box<dyn Subscriber>>> as an association
list. -/
abbrev Registry := List (String × List Subscriber)

/-- HashMap::get / get_mut for reading: the value of the first entry whose key
equals the requested one. -/
def Registry.get : Registry → String → Option (List Subscriber)
  | [], _ => none
  | (k, v) :: rest, n => if k = n then some v else Registry.get rest n

/-- Writing a value under a key: replaces the value of the first entry with
that key (a write through get_mut), or appends a fresh entry when the key is
absent (HashMap::insert of a new key). -/
def Registry.set : Registry → String → List Subscriber → Registry
  | [], n, v => [(n, v)]
  | (k, w) :: rest, n, v =>
      if k = n then (n, v) :: rest else (k, w) :: Registry.set rest n v

/-- struct EventBus. -/
structure EventBus where
  event_subscribers : Registry

/-- EventBus::new(). -/
def EventBus.new : EventBus :=
  { event_subscribers := [] }

/-- EventBus::subscribe(name, subscriber): if the name already has an entry,
push the boxed handler at the end of its vec; otherwise insert a fresh
one-element vec.  Always returns Ok(()). -/
def EventBus.subscribe (bus : EventBus) (event_name : String) (subscriber : Subscriber) :
    EventBus × Except String Unit :=
  match Registry.get bus.event_subscribers event_name with
  | some subs =>
      ({ event_subscribers :=
           Registry.set bus.event_subscribers event_name (subs ++ [subscriber]) },
       Except.ok ())
  | none =>
      ({ event_subscribers :=
           Registry.set bus.event_subscribers event_name [subscriber] },
       Except.ok ())

/-- EventBus::unsubscribe(name, subscriber): when the name has an entry, look
for the position of the first element event_subscriber of the vec with
event_subscriber.type_id() == subscriber.type_id() and remove it; otherwise do
nothing.  Always returns Ok(()).  Note the left side of the comparison is
boxed_type_id (the TypeId of Box<dyn Subscriber>, see its doc) while the right
side is the TypeId of the concrete argument type, so the predicate is false at
every element and position returns None: the source never removes anything. -/
def EventBus.unsubscribe (bus : EventBus) (event_name : String) (subscriber : Subscriber) :
    EventBus × Except String Unit :=
  match Registry.get bus.event_subscribers event_name with
  | some subs =>
      match subs.findIdx? (fun es => boxed_type_id es == Subscriber.type_id subscriber) with
      | some i =>
          ({ event_subscribers :=
               Registry.set bus.event_subscribers event_name (subs.eraseIdx i) },
           Except.ok ())
      | none => (bus, Except.ok ())
  | none => (bus, Except.ok ())

/-- EventBus::subscribe_all(name, subscribers): subscribe each element in
order; a per-element Err would be promoted to a panic by .expect, modelled as
an Except.error result that stops the iteration (subscribe in fact always
returns Ok, so the branch is dead). -/
def EventBus.subscribe_all : EventBus → String → List Subscriber → EventBus × Except String Unit
  | bus, _, [] => (bus, Except.ok ())
  | bus, n, s :: rest =>
      match EventBus.subscribe bus n s with
      | (bus2, Except.ok _) => EventBus.subscribe_all bus2 n rest
      | (bus2, Except.error e) => (bus2, Except.error e)

/-- The outcome of EventBus::post: normal return, or a panic raised by
.expect when a handler returned Err. -/
inductive PostOutcome where
  | ok : PostOutcome
  | panicked (err : String) : PostOutcome
deriving DecidableEq, Repr

/-- The for loop of EventBus::post over one vec of subscribers: call each in
order with a shared reference to the event; on Ok continue, on Err the
.expect(..) panics and the loop stops.  Returns the vec with the handler
states written back (call takes &mut self), the trace of invocations as
(hid, event) pairs in call order, and the outcome. -/
def runSubscribers (e : Event) :
    List Subscriber → List Subscriber × List (Nat × Event) × PostOutcome
  | [] => ([], [], PostOutcome.ok)
  | s :: rest =>
      let r := s.call s.state e
      match r.1 with
      | Except.ok _ =>
          let next := runSubscribers e rest
          ({ s with state := r.2 } :: next.1, (s.hid, e) :: next.2.1, next.2.2)
      | Except.error msg =>
          ({ s with state := r.2 } :: rest, [(s.hid, e)], PostOutcome.panicked msg)

/-- EventBus::post(event): look up the vec for event.name; if absent return at
once, else run the handlers in insertion order.  The registry keeps the same
keys and the same vec under each key (only handler states advance). -/
def EventBus.post (bus : EventBus) (e : Event) :
    EventBus × List (Nat × Event) × PostOutcome :=
  match Registry.get bus.event_subscribers e.name with
  | none => (bus, [], PostOutcome.ok)
  | some subs =>
      match runSubscribers e subs with
      | (subs2, tr, out) =>
          ({ event_subscribers := Registry.set bus.event_subscribers e.name subs2 },
           tr, out)

/-! Concrete handlers used in closed statements.  okSub models a value of a
concrete handler type (with TypeId code ty) whose call always returns Ok and
leaves its state alone; errSub models one whose call always returns Err msg. -/

def okSub (ty hid : Nat) : Subscriber :=
  { tyId := ty, hid := hid, state := 0, call := fun st _ => (Except.ok (), st) }

def errSub (ty hid : Nat) (msg : String) : Subscriber :=
  { tyId := ty, hid := hid, state := 0, call := fun st _ => (Except.error msg, st) }

/-- A bus holding two handlers of the same concrete type (TypeId code 0),
registered under the name tick in the order hid 1 then hid 2. -/
def busTwoSameType : EventBus :=
  ((EventBus.subscribe EventBus.new "tick" (okSub 0 1)).1.subscribe "tick" (okSub 0 2)).1

/-! Lemmas about the registry. -/

theorem Registry.get_set_self (r : Registry) (n : String) (v : List Subscriber) :
    Registry.get (Registry.set r n v) n = some v := by
  induction r with
  | nil => simp [Registry.set, Registry.get]
  | cons p rest ih =>
      obtain ⟨k, w⟩ := p
      by_cases h : k = n
      · simp [Registry.set, Registry.get, h]
      · simp [Registry.set, Registry.get, h, ih]

theorem Registry.get_set_ne (r : Registry) (n m : String) (v : List Subscriber)
    (h : m ≠ n) :
    Registry.get (Registry.set r n v) m = Registry.get r m := by
  induction r with
  | nil => simp [Registry.set, Registry.get, Ne.symm h]
  | cons p rest ih =>
      obtain ⟨k, w⟩ := p
      by_cases hk : k = n
      · subst hk
        simp [Registry.set, Registry.get, Ne.symm h]
      · simp [Registry.set, Registry.get, hk, ih]

/-! Lemmas about subscribe and subscribe_all. -/

theorem subscribe_snd_ok (bus : EventBus) (n : String) (s : Subscriber) :
    (EventBus.subscribe bus n s).2 = Except.ok () := by
  unfold EventBus.subscribe
  cases Registry.get bus.event_subscribers n <;> simp

theorem subscribe_get_self (bus : EventBus) (n : String) (s : Subscriber) :
    Registry.get (EventBus.subscribe bus n s).1.event_subscribers n
      = some ((Registry.get bus.event_subscribers n).getD [] ++ [s]) := by
  unfold EventBus.subscribe
  cases h : Registry.get bus.event_subscribers n <;>
    simp [h, Registry.get_set_self]

theorem subscribe_all_fst (bus : EventBus) (n : String) (hs : List Subscriber) :
    EventBus.subscribe_all bus n hs
      = (hs.foldl (fun b s => (EventBus.subscribe b n s).1) bus, Except.ok ()) := by
  induction hs generalizing bus with
  | nil => simp [EventBus.subscribe_all]
  | cons s rest ih =>
      have hok := subscribe_snd_ok bus n s
      rcases hsub : EventBus.subscribe bus n s with ⟨bus2, r⟩
      rw [hsub] at hok
      simp only at hok
      subst hok
      simp only [EventBus.subscribe_all, hsub, List.foldl]
      exact ih bus2

theorem foldl_subscribe_getD (n : String) (hs : List Subscriber) (bus : EventBus) :
    (Registry.get (hs.foldl (fun b s => (EventBus.subscribe b n s).1) bus).event_subscribers n).getD []
      = (Registry.get bus.event_subscribers n).getD [] ++ hs := by
  induction hs generalizing bus with
  | nil => simp
  | cons s rest ih =>
      simp only [List.foldl]
      rw [ih, subscribe_get_self]
      simp

theorem get_of_getD_ne_nil {r : Registry} {n : String} {l : List Subscriber}
    (h : (Registry.get r n).getD [] = l) (hne : l ≠ []) :
    Registry.get r n = some l := by
  cases hg : Registry.get r n with
  | none =>
      rw [hg] at h
      simp at h
      exact absurd h hne
  | some w =>
      rw [hg] at h
      simp at h
      rw [h]

theorem subscribe_all_new_get (n : String) (hs : List Subscriber) (h : hs ≠ []) :
    Registry.get (EventBus.subscribe_all EventBus.new n hs).1.event_subscribers n
      = some hs := by
  rw [subscribe_all_fst]
  refine get_of_getD_ne_nil ?_ h
  have hd := foldl_subscribe_getD n hs EventBus.new
  simpa [EventBus.new, Registry.get] using hd

/-! Lemmas about the dispatch loop. -/

theorem runSubscribers_all_ok (e : Event) (subs : List Subscriber)
    (h : ∀ s ∈ subs, (s.call s.state e).1 = Except.ok ()) :
    runSubscribers e subs
      = (subs.map (fun s => { s with state := (s.call s.state e).2 }),
         subs.map (fun s => (s.hid, e)), PostOutcome.ok) := by
  induction subs with
  | nil => simp [runSubscribers]
  | cons s rest ih =>
      have hs : (s.call s.state e).1 = Except.ok () := h s (by simp)
      have hrest := ih (fun t ht => h t (by simp [ht]))
      simp [runSubscribers, hs, hrest]

theorem runSubscribers_first_err (e : Event) (pre : List Subscriber) (bad : Subscriber)
    (rest : List Subscriber) (msg : String)
    (hok : ∀ s ∈ pre, (s.call s.state e).1 = Except.ok ())
    (hbad : (bad.call bad.state e).1 = Except.error msg) :
    runSubscribers e (pre ++ bad :: rest)
      = ((pre.map (fun s => { s with state := (s.call s.state e).2 }))
           ++ { bad with state := (bad.call bad.state e).2 } :: rest,
         (pre ++ [bad]).map (fun s => (s.hid, e)),
         PostOutcome.panicked msg) := by
  induction pre with
  | nil => simp [runSubscribers, hbad]
  | cons s pre2 ih =>
      have hs : (s.call s.state e).1 = Except.ok () := hok s (by simp)
      have ih2 := ih (fun t ht => hok t (by simp [ht]))
      simp [runSubscribers, hs, ih2]

/-! The claims. -/

/-- Claim C5: for every payload value v of concrete type (code) T, an Event
constructed with payload v, when its payload is retrieved as T, yields the
value v. -/
theorem event_payload_roundtrip (n : String) (T v : Nat) :
    Event.data (Event.new n T v) T = some v := by
  simp [Event.data, Event.downcast_ref, Event.new]

/-- Claim C6: on an Event constructed with payload type code T and value v,
the payload accessor asserted at type code U returns a view (some v) exactly
when U equals T, and otherwise returns none, the model of the fatal
non-recoverable unwrap panic; in particular it never returns a value under a
mismatched type assertion. -/
theorem event_data_checked (n : String) (T v U : Nat) :
    Event.data (Event.new n T v) U = if U = T then some v else none := by
  by_cases h : U = T
  · subst h
    simp [Event.data, Event.downcast_ref, Event.new]
  · simp [Event.data, Event.downcast_ref, Event.new, h, Ne.symm h]

/-- Claim C7: posting an event whose name has no registered handler sequence
(in particular on a freshly constructed bus) invokes no handler (empty
trace), leaves the bus unchanged and returns normally. -/
theorem post_unknown_name_noop (bus : EventBus) (e : Event)
    (h : Registry.get bus.event_subscribers e.name = none) :
    EventBus.post bus e = (bus, [], PostOutcome.ok) := by
  simp [EventBus.post, h]

theorem post_unknown_name_noop_witness :
    EventBus.post EventBus.new (Event.new "nope" 0 0)
      = (EventBus.new, [], PostOutcome.ok) :=
  post_unknown_name_noop EventBus.new (Event.new "nope" 0 0) rfl

/-- Claim C8: subscribe(N, s) returns Ok and appends s at the end of the
handler sequence registered under N; when no sequence exists for N the old
sequence reads as the empty one, so the new sequence is the one-element
sequence holding s. -/
theorem subscribe_appends_and_returns_ok (bus : EventBus) (n : String) (s : Subscriber) :
    (EventBus.subscribe bus n s).2 = Except.ok () ∧
    Registry.get (EventBus.subscribe bus n s).1.event_subscribers n
      = some ((Registry.get bus.event_subscribers n).getD [] ++ [s]) :=
  ⟨subscribe_snd_ok bus n s, subscribe_get_self bus n s⟩

/-- Claim C9: subscribe_all(N, hs) leaves the bus in the very state produced
by the sequential calls subscribe(N, h) for h running over hs in order, and
returns Ok; consequently the sequence registered under N afterwards is the
old one extended by hs, preserving the input order. -/
theorem subscribe_all_equiv_sequential (bus : EventBus) (n : String) (hs : List Subscriber) :
    EventBus.subscribe_all bus n hs
      = (hs.foldl (fun b s => (EventBus.subscribe b n s).1) bus, Except.ok ()) ∧
    (Registry.get (EventBus.subscribe_all bus n hs).1.event_subscribers n).getD []
      = (Registry.get bus.event_subscribers n).getD [] ++ hs := by
  refine ⟨subscribe_all_fst bus n hs, ?_⟩
  rw [subscribe_all_fst]
  exact foldl_subscribe_getD n hs bus

/-- Claim C3: for every sequence of handlers subscribed under one name N, a
single post of an event named N whose handler calls all succeed invokes
exactly those handlers, strictly in registration order, each exactly once,
each receiving the posted event, whose name equals N. -/
theorem post_invokes_in_registration_order (N : String) (hs : List Subscriber) (e : Event)
    (hname : e.name = N)
    (hok : ∀ s ∈ hs, (s.call s.state e).1 = Except.ok ()) :
    ((EventBus.subscribe_all EventBus.new N hs).1.post e).2.1
        = hs.map (fun s => (s.hid, e)) ∧
    ((EventBus.subscribe_all EventBus.new N hs).1.post e).2.2 = PostOutcome.ok ∧
    ∀ p ∈ ((EventBus.subscribe_all EventBus.new N hs).1.post e).2.1, (p.2).name = N := by
  subst hname
  rcases hs with _ | ⟨s0, rest⟩
  · simp [EventBus.subscribe_all, EventBus.post, EventBus.new, Registry.get]
  · have hget := subscribe_all_new_get e.name (s0 :: rest) (by simp)
    have hrun := runSubscribers_all_ok e (s0 :: rest) hok
    refine ⟨?_, ?_, ?_⟩ <;> simp [EventBus.post, hget, hrun]

theorem post_invokes_in_registration_order_witness :
    ((EventBus.subscribe_all EventBus.new "evt" [okSub 0 1, okSub 0 2]).1.post
        (Event.new "evt" 0 7)).2.1
      = [(1, Event.new "evt" 0 7), (2, Event.new "evt" 0 7)] :=
  (post_invokes_in_registration_order "evt" [okSub 0 1, okSub 0 2] (Event.new "evt" 0 7) rfl
      (by intro s hs
          simp [okSub] at hs
          rcases hs with rfl | rfl <;> rfl)).1

/-- Claim C4: posting to a name whose registered sequence is pre ++ bad ++
rest, where every handler of pre succeeds on the event and bad fails with
msg, invokes exactly the handlers of pre and then bad (so none of the
handlers registered after the failing one), and the post terminates fatally:
the outcome is the panic raised by .expect carrying the failure. -/
theorem post_failfast_on_handler_error (N : String) (pre : List Subscriber)
    (bad : Subscriber) (rest : List Subscriber) (e : Event) (msg : String)
    (hname : e.name = N)
    (hok : ∀ s ∈ pre, (s.call s.state e).1 = Except.ok ())
    (hbad : (bad.call bad.state e).1 = Except.error msg) :
    ((EventBus.subscribe_all EventBus.new N (pre ++ bad :: rest)).1.post e).2.1
        = (pre ++ [bad]).map (fun s => (s.hid, e)) ∧
    ((EventBus.subscribe_all EventBus.new N (pre ++ bad :: rest)).1.post e).2.2
        = PostOutcome.panicked msg := by
  subst hname
  have hget := subscribe_all_new_get e.name (pre ++ bad :: rest) (by simp)
  have hrun := runSubscribers_first_err e pre bad rest msg hok hbad
  constructor <;> simp [EventBus.post, hget, hrun]

theorem post_failfast_on_handler_error_witness :
    ((EventBus.subscribe_all EventBus.new "evt"
          ([okSub 0 1] ++ errSub 1 2 "boom" :: [okSub 0 3])).1.post
        (Event.new "evt" 0 0)).2.2
      = PostOutcome.panicked "boom" :=
  (post_failfast_on_handler_error "evt" [okSub 0 1] (errSub 1 2 "boom") [okSub 0 3]
      (Event.new "evt" 0 0) "boom" rfl
      (by intro s hs
          simp [okSub] at hs
          subst hs
          rfl)
      rfl).2

/-- Claim C10: when every handler registered under the posted event name
succeeds on the event, post leaves the registry unchanged: under every name
the registered sequence keeps its length and its order (the same handlers,
identified by hid and tyId, at the same positions; only private handler
state may advance, call taking the handler by mutable reference). -/
theorem post_preserves_registry (bus : EventBus) (e : Event)
    (hok : ∀ s ∈ (Registry.get bus.event_subscribers e.name).getD [],
        (s.call s.state e).1 = Except.ok ()) :
    ∀ n : String,
      Option.map (fun l => l.map (fun s => (s.hid, s.tyId)))
          (Registry.get (EventBus.post bus e).1.event_subscribers n)
        = Option.map (fun l => l.map (fun s => (s.hid, s.tyId)))
          (Registry.get bus.event_subscribers n) := by
  intro n
  cases hget : Registry.get bus.event_subscribers e.name with
  | none => simp [EventBus.post, hget]
  | some subs =>
      have hok2 : ∀ s ∈ subs, (s.call s.state e).1 = Except.ok () := by
        intro s hsm
        refine hok s ?_
        rw [hget]
        simpa using hsm
      have hrun := runSubscribers_all_ok e subs hok2
      by_cases hn : n = e.name
      · subst hn
        simp [EventBus.post, hget, hrun, Registry.get_set_self, List.map_map,
          Function.comp]
      · simp [EventBus.post, hget, hrun, Registry.get_set_ne _ _ _ _ hn]

theorem post_preserves_registry_witness :
    Option.map (fun l => l.map (fun s => (s.hid, s.tyId)))
        (Registry.get ((EventBus.subscribe EventBus.new "tick" (okSub 0 1)).1.post
            (Event.new "tick" 0 5)).1.event_subscribers "tick")
      = Option.map (fun l => l.map (fun s => (s.hid, s.tyId)))
        (Registry.get (EventBus.subscribe EventBus.new "tick" (okSub 0 1)).1.event_subscribers
          "tick") :=
  post_preserves_registry (EventBus.subscribe EventBus.new "tick" (okSub 0 1)).1
    (Event.new "tick" 0 5)
    (by intro s hsm
        have hs1 : s ∈ [okSub 0 1] := hsm
        simp at hs1
        subst hs1
        rfl)
    "tick"

/-- Claim C1, behaviour of the source at the failing input: a bus holding one
handler of concrete type code 0 under the name e, asked to unsubscribe a
handler value of that same concrete type, removes nothing (the registry is
unchanged) and returns Ok.  The position search compares the TypeId of the
type Box<dyn Subscriber> (the left side, see boxed_type_id) with the TypeId
of the concrete argument type; the two are never equal, so no handler is ever
removed, while the claim requires the first handler of the matching type to
be removed. -/
theorem unsubscribe_same_type_removes_nothing :
    ((EventBus.subscribe EventBus.new "e" (okSub 0 1)).1.unsubscribe "e"
          (okSub 0 2)).1.event_subscribers
        = (EventBus.subscribe EventBus.new "e" (okSub 0 1)).1.event_subscribers
    ∧ ((EventBus.subscribe EventBus.new "e" (okSub 0 1)).1.unsubscribe "e"
          (okSub 0 2)).2 = Except.ok () :=
  ⟨rfl, rfl⟩

/-- Claim C2, behaviour of the source at the failing input: with two handlers
of the same concrete type registered under tick, a post invokes two handlers
(as claimed); but after one unsubscribe of that type a post still invokes
two handlers (the claim requires one), and after a second such unsubscribe a
post still invokes two (the claim requires none): unsubscribe removes
nothing, see unsubscribe_same_type_removes_nothing. -/
theorem post_after_unsubscribe_still_two :
    (busTwoSameType.post (Event.new "tick" 0 0)).2.1.length = 2
    ∧ ((busTwoSameType.unsubscribe "tick" (okSub 0 1)).1.post
          (Event.new "tick" 0 0)).2.1.length = 2
    ∧ (((busTwoSameType.unsubscribe "tick" (okSub 0 1)).1.unsubscribe "tick"
          (okSub 0 1)).1.post (Event.new "tick" 0 0)).2.1.length = 2 :=
  ⟨rfl, rfl, rfl⟩

end EventBusModel
